import Mathlib

/-!
Shallow embedding of the preflightbind obfuscation engine
(src/wireguard/preflightbind/preflight_bind.go): the CPS template parser,
the junk-packet generator, the per-destination rate limiter, and the phased
decoy-send orchestrator that decorates a transport capability.

Modelling conventions:
* bytes are natural numbers (reduced mod 256 wherever Go converts to byte);
* Go machine integers are Int; the one place where 64-bit overflow is
  observable (strconv.Atoi inside the r-tag) models the int64 range check
  explicitly, assuming the usual 64-bit platform;
* nondeterminism (crypto/rand, math/rand, the wall clock) is an explicit
  environment argument: CPSEnv for one template resolution, JunkEnv for one
  junk packet, SeqEnv for one triggered sequence;
* network writes are trace events (SendEvent); Go's sendUDPPacket returns
  nothing, so a decoy send has no error channel at all and timing (sleeps,
  dial timeouts) is not part of the value-level model;
* rng.Intn n panics for n <= 0, so functions that can reach that panic
  return Option, with none standing for the panic.
-/

namespace Preflightbind

/-- Whitespace as trimmed by Go's strings.TrimSpace, restricted to the ASCII
range (templates are ASCII strings). -/
def isSpaceChar (c : Char) : Bool :=
  c == ' ' || c == '\t' || c == '\n' || c == '\r' || c == '\x0b' || c == '\x0c'

/-- strings.TrimSpace on a character list. -/
def trimSpace (l : List Char) : List Char :=
  ((l.dropWhile isSpaceChar).reverse.dropWhile isSpaceChar).reverse

/-- strings.ReplaceAll tagData " " "": only the ASCII space character is
removed, no other whitespace. -/
def removeSpaces (l : List Char) : List Char :=
  l.filter (fun c => !(c == ' '))

/-- Dropping an optional 0x / 0X prefix (preflight_bind.go:151-153). -/
def strip0x (l : List Char) : List Char :=
  match l with
  | '0' :: 'x' :: rest => rest
  | '0' :: 'X' :: rest => rest
  | _ => l

/-- One hex digit, as accepted by encoding/hex. -/
def hexVal (c : Char) : Option Nat :=
  if '0' ≤ c ∧ c ≤ '9' then some (c.toNat - '0'.toNat)
  else if 'a' ≤ c ∧ c ≤ 'f' then some (c.toNat - 'a'.toNat + 10)
  else if 'A' ≤ c ∧ c ≤ 'F' then some (c.toNat - 'A'.toNat + 10)
  else none

/-- encoding/hex DecodeString: pairs of hex digits; a trailing odd digit or a
non-hex character is an error (the Go caller only propagates err, so the
exact message is immaterial). -/
def hexDecode : List Char → Except String (List Nat)
  | [] => Except.ok []
  | [_] => Except.error "odd length hex string"
  | a :: b :: rest =>
    match hexVal a, hexVal b with
    | some x, some y =>
      match hexDecode rest with
      | Except.ok t => Except.ok ((16 * x + y) :: t)
      | Except.error e => Except.error e
    | _, _ => Except.error "invalid hex byte"

/-- Decimal digit test for strconv.Atoi. -/
def isDigitChar (c : Char) : Bool :=
  decide ('0' ≤ c) && decide (c ≤ '9')

/-- Value of an all-digit character list. -/
def digitsToNat (l : List Char) : Nat :=
  l.foldl (fun acc c => 10 * acc + (c.toNat - '0'.toNat)) 0

/-- strconv.Atoi: optional single sign, then decimal digits only; empty input
or a stray character is a syntax error, and a value outside the int64 range
is a range error (64-bit platform). -/
def atoi (s : List Char) : Except String Int :=
  let signed : Int × List Char :=
    match s with
    | '+' :: t => (1, t)
    | '-' :: t => (-1, t)
    | t => (1, t)
  match signed with
  | (sign, ds) =>
    if ds = [] then Except.error "invalid syntax"
    else if ds.all isDigitChar then
      let v : Int := sign * (digitsToNat ds : Int)
      if v < -(2 ^ 63) ∨ (2 ^ 63 - 1 : Int) < v then Except.error "value out of range"
      else Except.ok v
    else Except.error "invalid syntax"

/-- Is this one of the four recognised tag letters of the regex
<([btcr])\s*([^>]*)> ? -/
def isTagType (c : Char) : Bool :=
  c == 'b' || c == 't' || c == 'c' || c == 'r'

/-- Left-to-right scan implementing FindAllStringSubmatch of the tag regex:
at a '<' followed by one of b/t/c/r, everything up to the next '>' is the
raw tag data (whitespace splitting between the two groups is immaterial
because the Go code trims the capture); scanning resumes after that '>'.
A '<'+tag-letter with no later '>' matches nothing, and then nothing later
can match either, so discarding the open tag at end of input is faithful. -/
def scanAux : Option (Char × List Char) → List Char → List (Char × List Char)
  | _, [] => []
  | none, '<' :: t :: rest =>
    if isTagType t then scanAux (some (t, [])) rest else scanAux none (t :: rest)
  | none, _ :: rest => scanAux none rest
  | some (t, acc), '>' :: rest => (t, acc.reverse) :: scanAux none rest
  | some (t, acc), c :: rest => scanAux (some (t, c :: acc)) rest

/-- All tag matches of a template string, in order of appearance. -/
def findTags (s : String) : List (Char × List Char) :=
  scanAux none s.toList

/-- Environment for one call of parseCPSPacket: the wall clock at resolution
time (Unix seconds) and the crypto/rand byte stream consumed by r-tags. -/
structure CPSEnv where
  now : Nat
  rand : Nat → Nat

/-- Big-endian 4-byte encoding byte(x>>24), byte(x>>16), byte(x>>8), byte(x). -/
def be32 (x : Nat) : List Nat :=
  [x / 2 ^ 24 % 256, x / 2 ^ 16 % 256, x / 2 ^ 8 % 256, x % 256]

/-- n fresh crypto/rand bytes starting at stream offset off. -/
def takeRand (r : Nat → Nat) (off n : Nat) : List Nat :=
  (List.range n).map (fun i => r (off + i) % 256)

/-- Resolution of one scanned tag (the switch at preflight_bind.go:147-200).
Returns the contributed bytes together with the advanced random-stream
offset.  The b branch never reads the environment (literal bytes); the c
branch is uint32(Unix % 0xFFFFFFFF), the t branch uint32(Unix); the r branch
parses the length with Atoi, caps it at 1000 and only then draws bytes. -/
def resolveTag (env : CPSEnv) (off : Nat) (t : Char) (rawData : List Char) :
    Except String (List Nat × Nat) :=
  let tagData := trimSpace rawData
  if t = 'b' then
    if tagData = [] then Except.ok ([], off)
    else
      match hexDecode (removeSpaces (strip0x tagData)) with
      | Except.error e => Except.error ("invalid hex data in b tag: " ++ e)
      | Except.ok bs => Except.ok (bs, off)
  else if t = 'c' then Except.ok (be32 (env.now % 0xffffffff), off)
  else if t = 't' then Except.ok (be32 (env.now % 2 ^ 32), off)
  else if t = 'r' then
    if tagData = [] then Except.ok ([], off)
    else
      match atoi tagData with
      | Except.error e => Except.error ("invalid length in r tag: " ++ e)
      | Except.ok n =>
        let n := if n > 1000 then 1000 else n
        if n > 0 then Except.ok (takeRand env.rand off n.toNat, off + n.toNat)
        else Except.ok ([], off)
  else Except.ok ([], off)

/-- Sequential resolution of a tag list, aborting at the first error and
concatenating the contributions (the loop at preflight_bind.go:139-201). -/
def resolveTags (env : CPSEnv) : List (Char × List Char) → Nat → Except String (List Nat)
  | [], _ => Except.ok []
  | (t, d) :: rest, off =>
    match resolveTag env off t d with
    | Except.error e => Except.error e
    | Except.ok (bs, off') =>
      match resolveTags env rest off' with
      | Except.error e => Except.error e
      | Except.ok bss => Except.ok (bs ++ bss)

/-- parseCPSPacket: scan the template for tags and resolve them in order.
An empty template, and a template with no recognised tags, both yield the
empty byte string (Go returns a nil slice in both cases).  Text outside
tags contributes nothing. -/
def parseCPSPacket (env : CPSEnv) (cps : String) : Except String (List Nat) :=
  resolveTags env (findTags cps) 0

/-- Did an Except-returning operation succeed? -/
def isOkE {α : Type} (x : Except String α) : Bool :=
  match x with
  | Except.ok _ => true
  | Except.error _ => false

/-- AmneziaConfig (preflight_bind.go:23-49); defaults are the Go zero values. -/
structure AmneziaConfig where
  I1 : String := ""
  I2 : String := ""
  I3 : String := ""
  I4 : String := ""
  I5 : String := ""
  S1 : Int := 0
  S2 : Int := 0
  Jc : Int := 0
  Jmin : Int := 0
  Jmax : Int := 0
  JcAfterI1 : Int := 0
  JcBeforeHS : Int := 0
  JcAfterHS : Int := 0
  JunkInterval : Int := 0
  AllowZeroSize : Bool := false
  HandshakeDelay : Int := 0

/-- Environment for one generateJunkPacket call: the math/rand draws (draw i
is the i-th rng.Intn result before reduction), the crypto/rand fill bytes,
whether crypto/rand.Read fails, and the math/rand fallback fill bytes. -/
structure JunkEnv where
  draw : Nat → Nat
  bytes : Nat → Nat
  cryptoFails : Bool
  fb : Nat → Nat

/-- rng.Intn: uniform value in [0, n); panics (none) when n <= 0. -/
def intn (e : JunkEnv) (i : Nat) (n : Int) : Option Nat :=
  if n ≤ 0 then none else some (e.draw i % n.toNat)

/-- Filling a junk packet of a given positive size: crypto/rand bytes, or the
math/rand fallback when crypto/rand.Read fails (preflight_bind.go:268-276). -/
def junkFill (e : JunkEnv) (size : Nat) : List Nat :=
  if e.cryptoFails then (List.range size).map (fun i => e.fb i % 256)
  else (List.range size).map (fun i => e.bytes i % 256)

/-- The clamp-and-draw tail of generateJunkPacket (preflight_bind.go:250-276):
clamp negative min to 0, raise max to min when max < min, size
uniform in [min, max] (di is the Intn draw index reached on this path),
zero size giving a true empty packet. -/
def junkClamped (c : AmneziaConfig) (e : JunkEnv) (di : Nat) : Option (List Nat) :=
  let minSize := if c.Jmin < 0 then 0 else c.Jmin
  let maxSize := if c.Jmax < minSize then minSize else c.Jmax
  let sizeO : Option Int :=
    if maxSize = minSize then some minSize
    else
      match intn e di (maxSize - minSize + 1) with
      | none => none
      | some k => some (minSize + (k : Int))
  match sizeO with
  | none => none
  | some size => if size = 0 then some [] else some (junkFill e size.toNat)

/-- generateJunkPacket (preflight_bind.go:207-277).  nil config returns the
nil slice.  Jmin = Jmax = 0 is a true zero-byte packet; Jmin = 0 draws a
size in [0, Jmax] (the inner Jmax = 0 early return is dead code there);
with AllowZeroSize and Jmin > 0 a fair coin forces a zero-byte packet;
otherwise the clamped uniform draw.  none is the rng.Intn panic. -/
def generateJunkPacket (cfg : Option AmneziaConfig) (e : JunkEnv) : Option (List Nat) :=
  match cfg with
  | none => some []
  | some c =>
    if c.Jmin = 0 ∧ c.Jmax = 0 then some []
    else if c.Jmin = 0 then
      match intn e 0 (c.Jmax + 1) with
      | none => none
      | some size => if size = 0 then some [] else some (junkFill e size)
    else if c.AllowZeroSize ∧ c.Jmin > 0 then
      match intn e 0 2 with
      | none => none
      | some z => if z = 0 then some [] else junkClamped c e 1
    else junkClamped c e 0

/-- Bind (preflight_bind.go:52-60).  payload is the I1 bytes resolved once at
construction; Go keeps a nil slice when nothing was appended, and every
guard on it is a nil test, so the empty list faithfully stands for nil.
lastSent is the per-destination rate-limit map with the Go zero time 0 as
the default value of a missing key; destinations are abstracted to Nat. -/
structure Bind where
  port443 : Int
  payload : List Nat
  amneziaConfig : Option AmneziaConfig
  lastSent : Nat → Int
  interval : Int

instance : Inhabited Bind := ⟨⟨0, [], none, fun _ => 0, 0⟩⟩

/-- NewWithAmnezia (preflight_bind.go:82-102): only I1 is parsed at
construction (when the config and I1 are non-nil/non-empty); a parse error
aborts construction; I2..I5 are not looked at.  envC is the clock/randomness
at construction time. -/
def NewWithAmnezia (envC : CPSEnv) (amneziaConfig : Option AmneziaConfig)
    (port : Int) (minInterval : Int) : Except String Bind :=
  match amneziaConfig with
  | some cfg =>
    if cfg.I1 ≠ "" then
      match parseCPSPacket envC cfg.I1 with
      | Except.error e => Except.error ("invalid I1 CPS format: " ++ e)
      | Except.ok p => Except.ok ⟨port, p, some cfg, fun _ => 0, minInterval⟩
    else Except.ok ⟨port, [], some cfg, fun _ => 0, minInterval⟩
  | none => Except.ok ⟨port, [], none, fun _ => 0, minInterval⟩

/-- MessageInitiationType of the wrapped WireGuard device package: the source
comment at preflight_bind.go:111 documents first byte 1 for an initiation. -/
def MessageInitiationType : Nat := 1

/-- MessageInitiationSize of the wrapped WireGuard device package: the source
comment at preflight_bind.go:111 documents size 148 for an initiation. -/
def MessageInitiationSize : Nat := 148

/-- handshakeInitiation (preflight_bind.go:113-120): too-short buffers are
rejected, then first byte = type 1 and (redundantly) the length check. -/
def handshakeInitiation (buf : List Nat) : Bool :=
  if buf.length < MessageInitiationSize then false
  else decide (buf.headD 0 = MessageInitiationType) && decide (MessageInitiationSize ≤ buf.length)

/-- One attempted decoy datagram, tagged by the call site that emits it:
sig i is the signature packet for template Ii, the junk constructors give
the purpose of the junk train, simple is the non-Amnezia preflight payload. -/
inductive SendEvent where
  | sig (slot : Nat) (data : List Nat)
  | junkBeforeHS (data : List Nat)
  | junkJc (data : List Nat)
  | junkAfterI1 (data : List Nat)
  | junkAfterHS (data : List Nat)
  | simple (data : List Nat)
deriving DecidableEq

/-- Environment for one triggered sequence: the clock at the rate-limit
check, a fresh CPSEnv per signature slot resolved at send time, and a fresh
JunkEnv per junk packet, indexed by phase (0 fast, 1 post-BeforeHS, 2 Jc,
3 AfterI1, 4 AfterHS) and position. -/
structure SeqEnv where
  now : Int
  sigEnv : Nat → CPSEnv
  junkEnv : Nat → Nat → JunkEnv

/-- The packets produced by n successive generateJunkPacket calls; none if
any of them panics. -/
def junkSeq (cfg : Option AmneziaConfig) (es : Nat → JunkEnv) : Nat → Option (List (List Nat))
  | 0 => some []
  | n + 1 =>
    match generateJunkPacket cfg (es n), junkSeq cfg es n with
    | some bs, some rest => some (bs :: rest)
    | _, _ => none

/-- sendJunkPackets (preflight_bind.go:280-297): returns immediately for
count <= 0, otherwise emits exactly count junk datagrams (each junk packet
is one sendUDPPacket attempt; write failures have no effect and no error
channel). -/
def sendJunkPackets (cfg : Option AmneziaConfig) (tag : List Nat → SendEvent)
    (es : Nat → JunkEnv) (count : Int) : Option (List SendEvent) :=
  if count ≤ 0 then some []
  else (junkSeq cfg es count.toNat).map (List.map tag)

/-- The send decision for one of the I2..I5 slots in the loop at
preflight_bind.go:427-447: skipped when the template is empty, when
parseCPSPacket fails, or when it resolves to no bytes; otherwise the
freshly resolved bytes are sent. -/
def resolveSig (env : CPSEnv) (s : String) : Option (List Nat) :=
  if s = "" then none
  else
    match parseCPSPacket env s with
    | Except.error _ => none
    | Except.ok p => if p = [] then none else some p

/-- The signature datagrams of the fast sequence: I2..I5 in order, each
resolved afresh from the send-time environment of its slot. -/
def fastSigEvents (c : AmneziaConfig) (env : SeqEnv) : List SendEvent :=
  ([(2, c.I2), (3, c.I3), (4, c.I4), (5, c.I5)]).filterMap
    (fun p => (resolveSig (env.sigEnv p.1) p.2).map (SendEvent.sig p.1))

/-- The before-handshake junk part of the fast sequence
(preflight_bind.go:450-460): at most 3 packets even when JcBeforeHS
configures more. -/
def fastJunkEvents (c : AmneziaConfig) (env : SeqEnv) : Option (List SendEvent) :=
  if c.JcBeforeHS > 0 then
    let criticalCount := if c.JcBeforeHS > 3 then 3 else c.JcBeforeHS
    sendJunkPackets (some c) SendEvent.junkBeforeHS (env.junkEnv 0) criticalCount
  else some []

/-- executeFastPreHandshakeSequence (preflight_bind.go:416-464): I2..I5
signature packets, then the capped before-handshake junk. -/
def executeFastPreHandshakeSequence (b : Bind) (env : SeqEnv) : Option (List SendEvent) :=
  match b.amneziaConfig with
  | none => some []
  | some c => (fastJunkEvents c env).map (fun j => fastSigEvents c env ++ j)

/-- Post phase, step 5 (preflight_bind.go:491-495): the JcBeforeHS packets
beyond the cap of 3. -/
def postBeforeHSEvents (c : AmneziaConfig) (env : SeqEnv) : Option (List SendEvent) :=
  if c.JcBeforeHS > 3 then
    sendJunkPackets (some c) SendEvent.junkBeforeHS (env.junkEnv 1) (c.JcBeforeHS - 3)
  else some []

/-- Post phase, step 6 (preflight_bind.go:498-501): the general Jc train. -/
def postJcEvents (c : AmneziaConfig) (env : SeqEnv) : Option (List SendEvent) :=
  if c.Jc > 0 then sendJunkPackets (some c) SendEvent.junkJc (env.junkEnv 2) c.Jc
  else some []

/-- Post phase, step 7 (preflight_bind.go:504-507): the JcAfterI1 train. -/
def postAfterI1Events (c : AmneziaConfig) (env : SeqEnv) : Option (List SendEvent) :=
  if c.JcAfterI1 > 0 then sendJunkPackets (some c) SendEvent.junkAfterI1 (env.junkEnv 3) c.JcAfterI1
  else some []

/-- Post phase, step 8 (preflight_bind.go:510-513): the JcAfterHS train. -/
def postAfterHSEvents (c : AmneziaConfig) (env : SeqEnv) : Option (List SendEvent) :=
  if c.JcAfterHS > 0 then sendJunkPackets (some c) SendEvent.junkAfterHS (env.junkEnv 4) c.JcAfterHS
  else some []

/-- executePostHandshakeSequence (preflight_bind.go:478-514): the four junk
trains of the asynchronous phase, in order. -/
def executePostHandshakeSequence (b : Bind) (env : SeqEnv) : Option (List SendEvent) :=
  match b.amneziaConfig with
  | none => some []
  | some c =>
    match postBeforeHSEvents c env, postJcEvents c env,
        postAfterI1Events c env, postAfterHSEvents c env with
    | some e1, some e2, some e3, some e4 => some (e1 ++ e2 ++ e3 ++ e4)
    | _, _, _, _ => none

/-- The synchronous part of executeMinimalPreHandshakeSequence
(preflight_bind.go:390-409): the construction-time I1 payload is sent first
(only when I1 is set and the stored payload is non-nil), then the fast
sequence; the post sequence is launched asynchronously and not awaited. -/
def executeMinimalSync (b : Bind) (env : SeqEnv) : Option (List SendEvent) :=
  match b.amneziaConfig with
  | none => some []
  | some c =>
    let i1 : List SendEvent :=
      if c.I1 ≠ "" ∧ b.payload ≠ [] then [SendEvent.sig 1 b.payload] else []
    (executeFastPreHandshakeSequence b env).map (fun f => i1 ++ f)

/-- The asynchronous part of executeMinimalPreHandshakeSequence: the goroutine
running executePostHandshakeSequence (preflight_bind.go:412). -/
def executeMinimalAsync (b : Bind) (env : SeqEnv) : Option (List SendEvent) :=
  match b.amneziaConfig with
  | none => some []
  | some _ => executePostHandshakeSequence b env

/-- executeSimplePreflight (preflight_bind.go:379-387): one datagram carrying
the stored payload. -/
def executeSimplePreflight (b : Bind) : List SendEvent :=
  [SendEvent.simple b.payload]

/-- The rate-limiter read-modify-write under the lock at
preflight_bind.go:356-364 (the admit contract of the spec): reject with no
state change when now - last < interval, else record now for dst and
proceed. -/
def rateLimitCheck (m : Nat → Int) (interval : Int) (dst : Nat) (now : Int) :
    Bool × (Nat → Int) :=
  if now - m dst < interval then (false, m)
  else (true, fun a => if a = dst then now else m a)

/-- The decoy traffic and rate-limiter state resulting from one send call. -/
structure PreflightResult where
  syncEvents : Option (List SendEvent)
  asyncEvents : Option (List SendEvent)
  lastSent : Nat → Int

/-- maybePreflight (preflight_bind.go:343-376): nothing happens unless some
buffer of the batch looks like a handshake initiation; then the rate limiter
decides; on admission the Amnezia sequence (or the simple preflight when no
config is present) runs against the destination. -/
def maybePreflight (b : Bind) (env : SeqEnv) (bufs : List (List Nat)) (dst : Nat) :
    PreflightResult :=
  if bufs.any handshakeInitiation = false then ⟨some [], some [], b.lastSent⟩
  else
    match rateLimitCheck b.lastSent b.interval dst env.now with
    | (false, _) => ⟨some [], some [], b.lastSent⟩
    | (true, m) =>
      match b.amneziaConfig with
      | some _ => ⟨executeMinimalSync b env, executeMinimalAsync b env, m⟩
      | none => ⟨some (executeSimplePreflight b), some [], m⟩

/-- Send (preflight_bind.go:516-522): run maybePreflight, then hand the very
same buffers to the wrapped transport and return its result.  The wrapped
transport is the abstract capability innerSend with result type R. -/
def Send {R : Type} (innerSend : List (List Nat) → Nat → R) (b : Bind) (env : SeqEnv)
    (bufs : List (List Nat)) (dst : Nat) : PreflightResult × R :=
  (maybePreflight b env bufs dst, innerSend bufs dst)

/-- Does an event come from the before-handshake junk call sites? -/
def isBeforeHS : SendEvent → Bool
  | SendEvent.junkBeforeHS _ => true
  | _ => false

/-- Number of before-handshake junk datagrams in a trace; -1 when the trace
is undefined because a junk generation panicked. -/
def countBeforeHSopt : Option (List SendEvent) → Int
  | none => -1
  | some l => l.countP isBeforeHS

/-- Byte length of a junk generation result; -1 on panic. -/
def lenOpt : Option (List Nat) → Int
  | none => -1
  | some l => l.length

/-- A fixed construction-time environment (clock 0, zero random stream) used
by the concrete instances below. -/
def cpsEnv0 : CPSEnv := ⟨0, fun _ => 0⟩

/-- A CPS environment one second later than cpsEnv0. -/
def cpsEnvT1 : CPSEnv := ⟨1, fun _ => 0⟩

/-- A junk environment with all draws zero and a working crypto source. -/
def envJ0 : JunkEnv := ⟨fun _ => 0, fun _ => 0, false, fun _ => 0⟩

/-- A send-time sequence environment whose clock is 1 and whose per-slot
signature environments all read clock 1. -/
def seqEnvT1 : SeqEnv := ⟨1, fun _ => cpsEnvT1, fun _ _ => envJ0⟩

/-- A config whose only non-default field is the timestamp template I1. -/
def cfgI1t : AmneziaConfig := { I1 := "<t>" }

/-- The Bind that NewWithAmnezia builds from cfgI1t at construction time
cpsEnv0: the I1 payload is the timestamp 0 frozen into four bytes. -/
def bindC1 : Bind := ⟨443, [0, 0, 0, 0], some cfgI1t, fun _ => 0, 1000⟩

/-- A config with an empty I1 and a malformed I2 template. -/
def cfgBadI2 : AmneziaConfig := { I2 := "<b zz>" }

/-- A config with five before-handshake junk packets and default junk sizes. -/
def cfgC5 : AmneziaConfig := { Jmin := 24, Jmax := 1024, JcBeforeHS := 5, Jc := 2 }

/-- A Bind holding cfgC5. -/
def bindC5 : Bind := ⟨443, [], some cfgC5, fun _ => 0, 1000⟩

/-- A Bind with no Amnezia config. -/
def bindC6 : Bind := ⟨443, [], none, fun _ => 0, 1000⟩

/-- Junk bounds with max below min. -/
def cfg52 : AmneziaConfig := { Jmin := 5, Jmax := 2 }

/-- Degenerate junk bounds min = max = 10. -/
def cfg1010 : AmneziaConfig := { Jmin := 10, Jmax := 10 }

/-- The documented default junk bounds. -/
def cfgDefaults : AmneziaConfig := { Jmin := 24, Jmax := 1024 }

/-- Jmin = 0 with a negative Jmax: the configuration that reaches the
rng.Intn panic. -/
def cfgNegMax : AmneziaConfig := { Jmin := 0, Jmax := -1 }

/- ------------------------------------------------------------------ -/
/- Helper lemmas shared by the claim theorems below.                   -/
/- ------------------------------------------------------------------ -/

/-- takeRand always delivers exactly the requested number of bytes. -/
theorem takeRand_length (r : Nat → Nat) (off n : Nat) : (takeRand r off n).length = n := by
  simp [takeRand]

/-- junkFill always delivers exactly the requested number of bytes, on the
crypto path and on the math/rand fallback path alike. -/
theorem junkFill_length (e : JunkEnv) (n : Nat) : (junkFill e n).length = n := by
  unfold junkFill
  split <;> simp

/-- The clamp-and-draw tail of generateJunkPacket never panics: after the
clamps the Intn argument is positive on every path. -/
theorem junkClamped_isSome (c : AmneziaConfig) (e : JunkEnv) (di : Nat) :
    ∃ bs, junkClamped c e di = some bs := by
  simp only [junkClamped]
  set m := if c.Jmin < 0 then 0 else c.Jmin with hm
  set M := if c.Jmax < m then m else c.Jmax with hM
  have hm0 : 0 ≤ m := by rw [hm]; split <;> omega
  have hle : m ≤ M := by rw [hM]; split <;> omega
  by_cases heq : M = m
  · simp only [if_pos heq]
    by_cases hz : m = 0
    · exact ⟨[], by rw [if_pos hz]⟩
    · exact ⟨junkFill e m.toNat, by rw [if_neg hz]⟩
  · simp only [if_neg heq]
    have hpos : ¬ (M - m + 1 ≤ 0) := by omega
    simp only [intn, if_neg hpos]
    by_cases hz : m + (↑(e.draw di % (M - m + 1).toNat) : Int) = 0
    · exact ⟨[], by rw [if_pos hz]⟩
    · exact ⟨junkFill e (m + (↑(e.draw di % (M - m + 1).toNat) : Int)).toNat, by rw [if_neg hz]⟩

/-- With a positive configured minimum the clamp-and-draw tail delivers a
packet whose size lies between Jmin and max Jmin Jmax. -/
theorem junkClamped_bounds (c : AmneziaConfig) (e : JunkEnv) (di : Nat)
    (hpos : 0 < c.Jmin) :
    c.Jmin ≤ lenOpt (junkClamped c e di) ∧
    lenOpt (junkClamped c e di) ≤ max c.Jmin c.Jmax := by
  simp only [junkClamped]
  rw [if_neg (by omega : ¬ c.Jmin < 0)]
  have hmx : (if c.Jmax < c.Jmin then c.Jmin else c.Jmax) = max c.Jmin c.Jmax := by
    split <;> omega
  rw [hmx]
  by_cases heq : max c.Jmin c.Jmax = c.Jmin
  · simp only [if_pos heq]
    rw [if_neg (by omega : ¬ c.Jmin = 0)]
    simp only [lenOpt, junkFill_length]
    omega
  · simp only [if_neg heq]
    have hle : c.Jmin ≤ max c.Jmin c.Jmax := le_max_left _ _
    have hpos2 : ¬ (max c.Jmin c.Jmax - c.Jmin + 1 ≤ 0) := by omega
    simp only [intn, if_neg hpos2]
    have hk : e.draw di % (max c.Jmin c.Jmax - c.Jmin + 1).toNat <
        (max c.Jmin c.Jmax - c.Jmin + 1).toNat :=
      Nat.mod_lt _ (by omega)
    rw [if_neg (by omega :
      ¬ c.Jmin + (↑(e.draw di % (max c.Jmin c.Jmax - c.Jmin + 1).toNat) : Int) = 0)]
    simp only [lenOpt, junkFill_length]
    omega

/-- Every size in [Jmin, max Jmin Jmax] is attained by some draw of the
clamp-and-draw tail. -/
theorem junkClamped_surj (c : AmneziaConfig) (di : Nat) (hpos : 0 < c.Jmin)
    (s : Int) (h1 : c.Jmin ≤ s) (h2 : s ≤ max c.Jmin c.Jmax) :
    lenOpt (junkClamped c ⟨fun _ => (s - c.Jmin).toNat, fun _ => 0, false, fun _ => 0⟩ di) = s := by
  simp only [junkClamped]
  rw [if_neg (by omega : ¬ c.Jmin < 0)]
  have hmx : (if c.Jmax < c.Jmin then c.Jmin else c.Jmax) = max c.Jmin c.Jmax := by
    split <;> omega
  rw [hmx]
  by_cases heq : max c.Jmin c.Jmax = c.Jmin
  · simp only [if_pos heq]
    rw [if_neg (by omega : ¬ c.Jmin = 0)]
    simp only [lenOpt, junkFill_length]
    omega
  · simp only [if_neg heq]
    have hle : c.Jmin ≤ max c.Jmin c.Jmax := le_max_left _ _
    have hpos2 : ¬ (max c.Jmin c.Jmax - c.Jmin + 1 ≤ 0) := by omega
    simp only [intn, if_neg hpos2]
    have hmod : (s - c.Jmin).toNat % (max c.Jmin c.Jmax - c.Jmin + 1).toNat =
        (s - c.Jmin).toNat :=
      Nat.mod_eq_of_lt (by omega)
    rw [hmod]
    rw [if_neg (by omega : ¬ c.Jmin + (↑(s - c.Jmin).toNat : Int) = 0)]
    simp only [lenOpt, junkFill_length]
    omega

/-- With a positive Jmin and AllowZeroSize off, generateJunkPacket is exactly
the clamp-and-draw tail with the first draw index. -/
theorem generateJunkPacket_pos (c : AmneziaConfig) (e : JunkEnv)
    (hpos : 0 < c.Jmin) (hz : c.AllowZeroSize = false) :
    generateJunkPacket (some c) e = junkClamped c e 0 := by
  simp only [generateJunkPacket]
  rw [if_neg (by omega : ¬ (c.Jmin = 0 ∧ c.Jmax = 0))]
  rw [if_neg (by omega : ¬ c.Jmin = 0)]
  rw [if_neg (by simp [hz] : ¬ (c.AllowZeroSize = true ∧ c.Jmin > 0))]

/-- generateJunkPacket never panics when both configured junk bounds are
non-negative. -/
theorem generateJunkPacket_some (c : AmneziaConfig) (e : JunkEnv)
    (_hm : 0 ≤ c.Jmin) (hM : 0 ≤ c.Jmax) :
    ∃ bs, generateJunkPacket (some c) e = some bs := by
  simp only [generateJunkPacket]
  by_cases h1 : c.Jmin = 0 ∧ c.Jmax = 0
  · exact ⟨[], by rw [if_pos h1]⟩
  · rw [if_neg h1]
    by_cases h2 : c.Jmin = 0
    · rw [if_pos h2]
      have hp : ¬ (c.Jmax + 1 ≤ 0) := by omega
      simp only [intn, if_neg hp]
      by_cases hz : e.draw 0 % (c.Jmax + 1).toNat = 0
      · exact ⟨[], by rw [if_pos hz]⟩
      · exact ⟨junkFill e (e.draw 0 % (c.Jmax + 1).toNat), by rw [if_neg hz]⟩
    · rw [if_neg h2]
      by_cases h3 : c.AllowZeroSize = true ∧ c.Jmin > 0
      · rw [if_pos h3]
        have hp : ¬ ((2 : Int) ≤ 0) := by omega
        simp only [intn, if_neg hp]
        by_cases hz : e.draw 0 % (2 : Int).toNat = 0
        · exact ⟨[], by rw [if_pos hz]⟩
        · obtain ⟨bs, hbs⟩ := junkClamped_isSome c e 1
          exact ⟨bs, by rw [if_neg hz]; exact hbs⟩
      · rw [if_neg h3]
        exact junkClamped_isSome c e 0

/-- n junk generations in a row all succeed and produce n packets when the
configured bounds are non-negative. -/
theorem junkSeq_some (c : AmneziaConfig) (es : Nat → JunkEnv)
    (hm : 0 ≤ c.Jmin) (hM : 0 ≤ c.Jmax) :
    ∀ n, ∃ l, junkSeq (some c) es n = some l ∧ l.length = n := by
  intro n
  induction n with
  | zero => exact ⟨[], rfl, rfl⟩
  | succ k ih =>
    obtain ⟨l, hl, hlen⟩ := ih
    obtain ⟨bs, hbs⟩ := generateJunkPacket_some c (es k) hm hM
    exact ⟨bs :: l, by simp [junkSeq, hl, hbs], by simp [hlen]⟩

/-- sendJunkPackets emits exactly max count 0 junk datagrams, all carrying
its tag, when the configured bounds are non-negative. -/
theorem sendJunkPackets_spec (c : AmneziaConfig) (tag : List Nat → SendEvent)
    (es : Nat → JunkEnv) (count : Int) (hm : 0 ≤ c.Jmin) (hM : 0 ≤ c.Jmax) :
    ∃ evs, sendJunkPackets (some c) tag es count = some evs ∧
      (evs.length : Int) = max count 0 ∧ ∀ ev ∈ evs, ∃ d, ev = tag d := by
  unfold sendJunkPackets
  by_cases hc : count ≤ 0
  · refine ⟨[], by rw [if_pos hc], by simp; omega, by simp⟩
  · rw [if_neg hc]
    obtain ⟨l, hl, hlen⟩ := junkSeq_some c es hm hM count.toNat
    refine ⟨l.map tag, by rw [hl]; rfl, ?_, ?_⟩
    · simp only [List.length_map, hlen]
      omega
    · intro ev hev
      obtain ⟨d, _, hd⟩ := List.mem_map.1 hev
      exact ⟨d, hd.symm⟩

/-- Before-handshake junk events are counted in full by isBeforeHS. -/
theorem countP_eq_length_of_tagged (evs : List SendEvent)
    (h : ∀ ev ∈ evs, ∃ d, ev = SendEvent.junkBeforeHS d) :
    evs.countP isBeforeHS = evs.length := by
  apply List.countP_eq_length.2
  intro ev hev
  obtain ⟨d, rfl⟩ := h ev hev
  rfl

/-- Events that are not before-handshake junk contribute nothing to the
count. -/
theorem countP_eq_zero_of_not (evs : List SendEvent)
    (h : ∀ ev ∈ evs, isBeforeHS ev = false) :
    evs.countP isBeforeHS = 0 := by
  apply List.countP_eq_zero.2
  intro ev hev
  simp [h ev hev]

/-- Signature events are never before-handshake junk events. -/
theorem fastSigEvents_not_beforeHS (c : AmneziaConfig) (env : SeqEnv) :
    ∀ ev ∈ fastSigEvents c env, isBeforeHS ev = false := by
  intro ev hev
  simp only [fastSigEvents, List.mem_filterMap] at hev
  obtain ⟨p, _, hp⟩ := hev
  obtain ⟨d, _, rfl⟩ := Option.map_eq_some'.1 hp
  rfl

/-- The decoded meaning of the handshakeInitiation test. -/
theorem handshakeInitiation_iff (buf : List Nat) :
    handshakeInitiation buf = true ↔
      (buf.headD 0 = MessageInitiationType ∧ MessageInitiationSize ≤ buf.length) := by
  unfold handshakeInitiation
  by_cases hl : buf.length < MessageInitiationSize
  · rw [if_pos hl]
    constructor
    · intro h
      simp at h
    · intro hcon
      exact absurd hcon.2 (by omega)
  · rw [if_neg hl]
    simp [Bool.and_eq_true, decide_eq_true_iff]

/-- The r branch of resolveTag, unfolded. -/
theorem resolveTag_r (env : CPSEnv) (off : Nat) (d : List Char) :
    resolveTag env off 'r' d =
      (if trimSpace d = [] then Except.ok ([], off)
       else
         match atoi (trimSpace d) with
         | Except.error e => Except.error ("invalid length in r tag: " ++ e)
         | Except.ok n =>
           let n := if n > 1000 then 1000 else n
           if n > 0 then Except.ok (takeRand env.rand off n.toNat, off + n.toNat)
           else Except.ok ([], off)) := rfl

/-- The b branch of resolveTag, unfolded. -/
theorem resolveTag_b (env : CPSEnv) (off : Nat) (d : List Char) :
    resolveTag env off 'b' d =
      (if trimSpace d = [] then Except.ok ([], off)
       else
         match hexDecode (removeSpaces (strip0x (trimSpace d))) with
         | Except.error e => Except.error ("invalid hex data in b tag: " ++ e)
         | Except.ok bs => Except.ok (bs, off)) := rfl

/-- The fast phase emits exactly min JcBeforeHS 3 before-handshake junk
datagrams (for a non-negative JcBeforeHS and junk bounds). -/
theorem fastJunkEvents_spec (c : AmneziaConfig) (env : SeqEnv)
    (h0 : 0 ≤ c.JcBeforeHS) (hm : 0 ≤ c.Jmin) (hM : 0 ≤ c.Jmax) :
    ∃ js, fastJunkEvents c env = some js ∧
      (js.countP isBeforeHS : Int) = min c.JcBeforeHS 3 ∧
      ∀ ev ∈ js, ∃ d, ev = SendEvent.junkBeforeHS d := by
  unfold fastJunkEvents
  by_cases hk : c.JcBeforeHS > 0
  · rw [if_pos hk]
    obtain ⟨evs, hevs, hlen, htag⟩ :=
      sendJunkPackets_spec c SendEvent.junkBeforeHS (env.junkEnv 0)
        (if c.JcBeforeHS > 3 then 3 else c.JcBeforeHS) hm hM
    refine ⟨evs, hevs, ?_, htag⟩
    rw [countP_eq_length_of_tagged evs htag, hlen]
    split <;> omega
  · rw [if_neg hk]
    refine ⟨[], rfl, by simp; omega, by simp⟩

/-- Step 5 of the post phase emits exactly max (JcBeforeHS - 3) 0
before-handshake junk datagrams. -/
theorem postBeforeHSEvents_spec (c : AmneziaConfig) (env : SeqEnv)
    (hm : 0 ≤ c.Jmin) (hM : 0 ≤ c.Jmax) :
    ∃ evs, postBeforeHSEvents c env = some evs ∧
      (evs.countP isBeforeHS : Int) = max (c.JcBeforeHS - 3) 0 := by
  unfold postBeforeHSEvents
  by_cases hk : c.JcBeforeHS > 3
  · rw [if_pos hk]
    obtain ⟨evs, hevs, hlen, htag⟩ :=
      sendJunkPackets_spec c SendEvent.junkBeforeHS (env.junkEnv 1) (c.JcBeforeHS - 3) hm hM
    refine ⟨evs, hevs, ?_⟩
    rw [countP_eq_length_of_tagged evs htag, hlen]
  · rw [if_neg hk]
    refine ⟨[], rfl, by simp; omega⟩

/-- A junk train with a non-beforeHS tag contributes nothing to the
before-handshake count. -/
theorem sendJunkPackets_no_beforeHS (c : AmneziaConfig) (tag : List Nat → SendEvent)
    (es : Nat → JunkEnv) (count : Int) (hm : 0 ≤ c.Jmin) (hM : 0 ≤ c.Jmax)
    (htag : ∀ d, isBeforeHS (tag d) = false) :
    ∃ evs, sendJunkPackets (some c) tag es count = some evs ∧
      evs.countP isBeforeHS = 0 := by
  obtain ⟨evs, hevs, _, ht⟩ := sendJunkPackets_spec c tag es count hm hM
  refine ⟨evs, hevs, countP_eq_zero_of_not evs ?_⟩
  intro ev hev
  obtain ⟨d, rfl⟩ := ht ev hev
  exact htag d

/-- Step 6 of the post phase contains no before-handshake junk events. -/
theorem postJcEvents_spec (c : AmneziaConfig) (env : SeqEnv)
    (hm : 0 ≤ c.Jmin) (hM : 0 ≤ c.Jmax) :
    ∃ evs, postJcEvents c env = some evs ∧ evs.countP isBeforeHS = 0 := by
  unfold postJcEvents
  by_cases hk : c.Jc > 0
  · rw [if_pos hk]
    exact sendJunkPackets_no_beforeHS c _ _ _ hm hM (fun d => rfl)
  · rw [if_neg hk]
    exact ⟨[], rfl, rfl⟩

/-- Step 7 of the post phase contains no before-handshake junk events. -/
theorem postAfterI1Events_spec (c : AmneziaConfig) (env : SeqEnv)
    (hm : 0 ≤ c.Jmin) (hM : 0 ≤ c.Jmax) :
    ∃ evs, postAfterI1Events c env = some evs ∧ evs.countP isBeforeHS = 0 := by
  unfold postAfterI1Events
  by_cases hk : c.JcAfterI1 > 0
  · rw [if_pos hk]
    exact sendJunkPackets_no_beforeHS c _ _ _ hm hM (fun d => rfl)
  · rw [if_neg hk]
    exact ⟨[], rfl, rfl⟩

/-- Step 8 of the post phase contains no before-handshake junk events. -/
theorem postAfterHSEvents_spec (c : AmneziaConfig) (env : SeqEnv)
    (hm : 0 ≤ c.Jmin) (hM : 0 ≤ c.Jmax) :
    ∃ evs, postAfterHSEvents c env = some evs ∧ evs.countP isBeforeHS = 0 := by
  unfold postAfterHSEvents
  by_cases hk : c.JcAfterHS > 0
  · rw [if_pos hk]
    exact sendJunkPackets_no_beforeHS c _ _ _ hm hM (fun d => rfl)
  · rw [if_neg hk]
    exact ⟨[], rfl, rfl⟩

/-- The rate limiter admits exactly when at least the interval has elapsed
since the stored timestamp. -/
theorem rateLimitCheck_true_iff (m : Nat → Int) (interval : Int) (dst : Nat) (now : Int) :
    (rateLimitCheck m interval dst now).1 = true ↔ interval ≤ now - m dst := by
  unfold rateLimitCheck
  by_cases h : now - m dst < interval
  · rw [if_pos h]
    constructor
    · intro h2
      exact absurd h2 (by simp)
    · intro h2
      exact absurd h2 (by omega)
  · rw [if_neg h]
    exact ⟨fun _ => by omega, fun _ => rfl⟩

/-- An admitted trigger records its own time for the destination. -/
theorem rateLimitCheck_update (m : Nat → Int) (interval : Int) (dst : Nat) (now : Int)
    (h : (rateLimitCheck m interval dst now).1 = true) :
    (rateLimitCheck m interval dst now).2 dst = now := by
  unfold rateLimitCheck at h ⊢
  by_cases hc : now - m dst < interval
  · rw [if_pos hc] at h
    exact absurd h (by simp)
  · rw [if_neg hc]
    exact if_pos rfl

/-- No other destination's entry is touched. -/
theorem rateLimitCheck_other (m : Nat → Int) (interval : Int) (dst : Nat) (now : Int)
    (a : Nat) (ha : a ≠ dst) :
    (rateLimitCheck m interval dst now).2 a = m a := by
  unfold rateLimitCheck
  by_cases hc : now - m dst < interval
  · rw [if_pos hc]
  · rw [if_neg hc]
    exact if_neg ha

/-- A rejected trigger leaves the whole map unchanged. -/
theorem rateLimitCheck_false_unchanged (m : Nat → Int) (interval : Int) (dst : Nat)
    (now : Int) (h : (rateLimitCheck m interval dst now).1 = false) :
    (rateLimitCheck m interval dst now).2 = m := by
  unfold rateLimitCheck at h ⊢
  by_cases hc : now - m dst < interval
  · rw [if_pos hc]
  · rw [if_neg hc] at h
    exact absurd h (by simp)

/- ------------------------------------------------------------------ -/
/- The claim theorems.                                                 -/
/- ------------------------------------------------------------------ -/

/-- C1 counterexample: a Bind constructed with I1 a bare timestamp template
at construction time 0 sends, when triggered at time 1, the frozen
construction-time bytes 00 00 00 00 for I1, while a fresh send-time
resolution of the same template yields 00 00 00 01: the I1 bytes are reused
from engine construction, not recomputed at send time. -/
theorem i1_frozen_counterexample :
    executeMinimalSync bindC1 seqEnvT1 = some [SendEvent.sig 1 [0, 0, 0, 0]] ∧
    parseCPSPacket (seqEnvT1.sigEnv 1) cfgI1t.I1 = Except.ok [0, 0, 0, 1] ∧
    ([0, 0, 0, 0] : List Nat) ≠ [0, 0, 0, 1] :=
  ⟨rfl, rfl, by decide⟩

/-- C1 (amended): on every triggered sequence the I2..I5 signature bytes are
resolved afresh from the send-time environment (fastSigEvents reads
env.sigEnv), while the I1 bytes sent are the payload frozen at engine
construction: exactly the bytes parseCPSPacket produced from the
construction-time environment, independent of the send-time environment.
The b-tag (literal) portion of a resolution does not depend on the
environment at all, so literal bytes are identical across resolutions. -/
theorem i1_construction_I2toI5_fresh (cfg : AmneziaConfig) (envC : CPSEnv) (env : SeqEnv)
    (b : Bind) (p : List Nat) (pt iv : Int) (js : List SendEvent)
    (d : List Char) (off : Nat) (env1 env2 : CPSEnv)
    (hb : NewWithAmnezia envC (some cfg) pt iv = Except.ok b)
    (h1 : cfg.I1 ≠ "") (hp : parseCPSPacket envC cfg.I1 = Except.ok p) (hne : p ≠ [])
    (hj : fastJunkEvents cfg env = some js) :
    executeMinimalSync b env = some (SendEvent.sig 1 p :: (fastSigEvents cfg env ++ js)) ∧
    b.payload = p ∧
    resolveTag env1 off 'b' d = resolveTag env2 off 'b' d := by
  simp only [NewWithAmnezia, if_pos h1, hp] at hb
  injection hb with hb
  subst hb
  refine ⟨?_, rfl, rfl⟩
  simp only [executeMinimalSync, executeFastPreHandshakeSequence, hj, Option.map_some']
  rw [if_pos (And.intro h1 hne)]
  rfl

/-- C1 witness: the amended theorem applied to the concrete timestamp
template, with construction at time 0 and the trigger at time 1. -/
theorem i1_construction_I2toI5_fresh_witness :
    executeMinimalSync bindC1 seqEnvT1 =
      some (SendEvent.sig 1 [0, 0, 0, 0] :: (fastSigEvents cfgI1t seqEnvT1 ++ [])) ∧
    bindC1.payload = [0, 0, 0, 0] ∧
    resolveTag cpsEnv0 0 'b' ['f', 'f'] = resolveTag cpsEnvT1 0 'b' ['f', 'f'] :=
  i1_construction_I2toI5_fresh cfgI1t cpsEnv0 seqEnvT1 bindC1 [0, 0, 0, 0] 443 1000 []
    ['f', 'f'] 0 cpsEnv0 cpsEnvT1 rfl (by decide) rfl (by decide) rfl

/-- C2: Send forwards the caller's buffers unchanged to the wrapped
transport and returns exactly the wrapped transport's result; the result is
the same for every decoy environment (every pattern of decoy randomness,
timing and implicit write failures), because the decoy path of Go's
sendUDPPacket has no error channel into Send at all. -/
theorem send_result_is_inner_result {R : Type} (innerSend : List (List Nat) → Nat → R)
    (b : Bind) (env env' : SeqEnv) (bufs : List (List Nat)) (dst : Nat) :
    (Send innerSend b env bufs dst).2 = innerSend bufs dst ∧
    (Send innerSend b env bufs dst).2 = (Send innerSend b env' bufs dst).2 :=
  ⟨rfl, rfl⟩

/-- C3 counterexample: construction succeeds although I2 is a malformed
template (invalid hex in its b tag), contradicting the claim that a
malformed template among I1..I5 fails construction. -/
theorem newWithAmnezia_badI2_ok :
    isOkE (NewWithAmnezia cpsEnv0 (some cfgBadI2) 443 1000) = true ∧
    isOkE (parseCPSPacket cpsEnv0 cfgBadI2.I2) = false :=
  ⟨rfl, rfl⟩

/-- C3 (amended): engine construction fails if and only if I1 is non-empty
and malformed; the templates I2..I5 are not validated at construction
(NewWithAmnezia parses only I1), so construction succeeds whenever I1 is
empty or well-formed, whatever I2..I5 contain. -/
theorem newWithAmnezia_error_iff_I1_bad (envC : CPSEnv) (cfg : AmneziaConfig) (pt iv : Int) :
    isOkE (NewWithAmnezia envC (some cfg) pt iv) = false ↔
      cfg.I1 ≠ "" ∧ isOkE (parseCPSPacket envC cfg.I1) = false := by
  simp only [NewWithAmnezia]
  by_cases h1 : cfg.I1 = ""
  · rw [if_neg (by simp [h1])]
    simp [isOkE, h1]
  · rw [if_pos h1]
    cases hpc : parseCPSPacket envC cfg.I1 with
    | error e => simp [isOkE, h1]
    | ok p => simp [isOkE]

/-- C4 counterexample: with the last trigger at time 0 and a minimum
interval of 5, a trigger at time 5 is admitted and updates the map, although
the elapsed time equals and does not exceed the interval. -/
theorem rateLimit_boundary_counterexample :
    (rateLimitCheck (fun _ => 0) 5 0 5).1 = true ∧
    (rateLimitCheck (fun _ => 0) 5 0 5).2 0 = 5 ∧
    ¬ ((5 : Int) - 0 > 5) :=
  ⟨rfl, rfl, by decide⟩

/-- C4 (amended): the rate limiter admits and updates the destination's
timestamp exactly when the elapsed time is at least (not strictly more
than) the configured interval; a rejected trigger leaves the map unchanged,
an admitted one changes only the triggering destination's entry, and two
consecutively admitted triggers for a destination are at least the interval
apart. -/
theorem rateLimit_spec (m : Nat → Int) (interval : Int) (dst : Nat) (now now' : Int)
    (a : Nat) (ha : a ≠ dst) :
    ((rateLimitCheck m interval dst now).1 = true ↔ interval ≤ now - m dst) ∧
    ((rateLimitCheck m interval dst now).1 = true →
      (rateLimitCheck m interval dst now).2 dst = now ∧
      (rateLimitCheck m interval dst now).2 a = m a) ∧
    ((rateLimitCheck m interval dst now).1 = false →
      (rateLimitCheck m interval dst now).2 = m) ∧
    ((rateLimitCheck m interval dst now).1 = true →
      (rateLimitCheck (rateLimitCheck m interval dst now).2 interval dst now').1 = true →
      interval ≤ now' - now) := by
  refine ⟨rateLimitCheck_true_iff m interval dst now, ?_,
    rateLimitCheck_false_unchanged m interval dst now, ?_⟩
  · intro h
    exact ⟨rateLimitCheck_update m interval dst now h,
      rateLimitCheck_other m interval dst now a ha⟩
  · intro h htrue
    have h1 := (rateLimitCheck_true_iff _ interval dst now').1 htrue
    rw [rateLimitCheck_update m interval dst now h] at h1
    exact h1

/-- C4 witness: the amended theorem at a concrete map and times. -/
theorem rateLimit_spec_witness :
    (((rateLimitCheck (fun _ => (0 : Int)) 5 0 7).1 = true ↔ (5 : Int) ≤ 7 - 0) ∧
     ((rateLimitCheck (fun _ => (0 : Int)) 5 0 7).1 = true →
       (rateLimitCheck (fun _ => (0 : Int)) 5 0 7).2 0 = 7 ∧
       (rateLimitCheck (fun _ => (0 : Int)) 5 0 7).2 1 = 0) ∧
     ((rateLimitCheck (fun _ => (0 : Int)) 5 0 7).1 = false →
       (rateLimitCheck (fun _ => (0 : Int)) 5 0 7).2 = fun _ => 0) ∧
     ((rateLimitCheck (fun _ => (0 : Int)) 5 0 7).1 = true →
       (rateLimitCheck (rateLimitCheck (fun _ => (0 : Int)) 5 0 7).2 5 0 12).1 = true →
       (5 : Int) ≤ 12 - 7)) :=
  rateLimit_spec (fun _ => 0) 5 0 7 12 1 (by decide)

/-- C5: with JcBeforeHS configured (non-negative, junk bounds non-negative),
the synchronous fast phase emits exactly min JcBeforeHS 3 before-handshake
junk datagrams, the asynchronous post phase exactly max (JcBeforeHS - 3) 0
more, and together exactly JcBeforeHS. -/
theorem junkBeforeHS_phase_counts (b : Bind) (c : AmneziaConfig) (env : SeqEnv)
    (hc : b.amneziaConfig = some c) (h0 : 0 ≤ c.JcBeforeHS)
    (hm : 0 ≤ c.Jmin) (hM : 0 ≤ c.Jmax) :
    countBeforeHSopt (executeMinimalSync b env) = min c.JcBeforeHS 3 ∧
    countBeforeHSopt (executeMinimalAsync b env) = max (c.JcBeforeHS - 3) 0 ∧
    countBeforeHSopt (executeMinimalSync b env) +
      countBeforeHSopt (executeMinimalAsync b env) = c.JcBeforeHS := by
  obtain ⟨js, hjs, hjcount, hjtag⟩ := fastJunkEvents_spec c env h0 hm hM
  obtain ⟨e1, he1, hc1⟩ := postBeforeHSEvents_spec c env hm hM
  obtain ⟨e2, he2, hc2⟩ := postJcEvents_spec c env hm hM
  obtain ⟨e3, he3, hc3⟩ := postAfterI1Events_spec c env hm hM
  obtain ⟨e4, he4, hc4⟩ := postAfterHSEvents_spec c env hm hM
  have hsync : countBeforeHSopt (executeMinimalSync b env) = min c.JcBeforeHS 3 := by
    simp only [executeMinimalSync, executeFastPreHandshakeSequence, hc, hjs, Option.map_some']
    simp only [countBeforeHSopt, List.countP_append]
    rw [countP_eq_zero_of_not (fastSigEvents c env) (fastSigEvents_not_beforeHS c env)]
    have hi1 : (if c.I1 ≠ "" ∧ b.payload ≠ [] then [SendEvent.sig 1 b.payload]
        else ([] : List SendEvent)).countP isBeforeHS = 0 := by
      split <;> rfl
    rw [hi1]
    push_cast
    omega
  have hasync : countBeforeHSopt (executeMinimalAsync b env) = max (c.JcBeforeHS - 3) 0 := by
    simp only [executeMinimalAsync, executePostHandshakeSequence, hc, he1, he2, he3, he4]
    simp only [countBeforeHSopt, List.countP_append, hc2, hc3, hc4]
    push_cast
    omega
  exact ⟨hsync, hasync, by rw [hsync, hasync]; omega⟩

/-- C5 witness: the theorem at a concrete config with JcBeforeHS = 5:
3 before-handshake junk datagrams in the fast phase and 2 in the post
phase. -/
theorem junkBeforeHS_phase_counts_witness :
    countBeforeHSopt (executeMinimalSync bindC5 seqEnvT1) = min (5 : Int) 3 ∧
    countBeforeHSopt (executeMinimalAsync bindC5 seqEnvT1) = max ((5 : Int) - 3) 0 ∧
    countBeforeHSopt (executeMinimalSync bindC5 seqEnvT1) +
      countBeforeHSopt (executeMinimalAsync bindC5 seqEnvT1) = 5 :=
  junkBeforeHS_phase_counts bindC5 cfgC5 seqEnvT1 rfl (by decide) (by decide) (by decide)

/-- C6: a batch with no buffer shaped like a handshake initiation (first
byte the initiation type and length at least the minimum initiation size)
triggers no decoy traffic, leaves the rate-limiter map unchanged, and is
forwarded to the wrapped transport whose result Send returns. -/
theorem no_initiation_no_decoy {R : Type} (innerSend : List (List Nat) → Nat → R)
    (b : Bind) (env : SeqEnv) (bufs : List (List Nat)) (dst : Nat)
    (h : ∀ buf ∈ bufs,
      ¬ (buf.headD 0 = MessageInitiationType ∧ MessageInitiationSize ≤ buf.length)) :
    maybePreflight b env bufs dst = ⟨some [], some [], b.lastSent⟩ ∧
    (Send innerSend b env bufs dst).2 = innerSend bufs dst := by
  have hany : bufs.any handshakeInitiation = false := by
    cases hA : bufs.any handshakeInitiation
    · rfl
    · exfalso
      obtain ⟨buf, hbuf, hP⟩ := List.any_eq_true.1 hA
      exact h buf hbuf ((handshakeInitiation_iff buf).1 hP)
  constructor
  · simp [maybePreflight, hany]
  · rfl

/-- C6 witness: a one-buffer batch that is not initiation-shaped passes
through a configless Bind untouched. -/
theorem no_initiation_no_decoy_witness :
    maybePreflight bindC6 seqEnvT1 [[0, 1, 2]] 7 = ⟨some [], some [], bindC6.lastSent⟩ ∧
    (Send (fun bs d2 => (bs, d2)) bindC6 seqEnvT1 [[0, 1, 2]] 7).2 = ([[0, 1, 2]], 7) :=
  no_initiation_no_decoy (fun bs d2 => (bs, d2)) bindC6 seqEnvT1 [[0, 1, 2]] 7 (by decide)

/-- C7 counterexample: a literal N just beyond the int64 range makes the
r tag fail with a parse error instead of being clamped to 1000 random
bytes, so the clamp does not apply regardless of the literal value. -/
theorem r_tag_overflow_error :
    isOkE (parseCPSPacket cpsEnv0 "<r 9223372036854775808>") = false ∧
    (9223372036854775808 : Int) = 2 ^ 63 ∧
    max 0 (min (9223372036854775808 : Int) 1000) = 1000 :=
  ⟨rfl, by norm_num, by norm_num⟩

/-- C7 (amended): an r tag whose length literal parses as the 64-bit integer
n contributes exactly clamp n 0 1000 fresh random bytes (max 0 (min n 1000),
so negative n contributes nothing), a missing length contributes nothing,
and a length literal outside the int64 range is a parse error rather than
being clamped; resolving the template with r 5000 yields exactly 1000 bytes
on every call, whatever the environment. -/
theorem r_tag_clamped_contribution (env : CPSEnv) (off : Nat) (d : List Char) (n : Int) :
    (trimSpace d = [] → resolveTag env off 'r' d = Except.ok ([], off)) ∧
    (atoi (trimSpace d) = Except.ok n →
      resolveTag env off 'r' d =
        Except.ok (takeRand env.rand off (min n 1000).toNat, off + (min n 1000).toNat)) ∧
    ((takeRand env.rand off (min n 1000).toNat).length : Int) = max 0 (min n 1000) ∧
    (∀ er, trimSpace d ≠ [] → atoi (trimSpace d) = Except.error er →
      resolveTag env off 'r' d = Except.error ("invalid length in r tag: " ++ er)) ∧
    parseCPSPacket env "<r 5000>" = Except.ok (takeRand env.rand 0 1000) ∧
    (takeRand env.rand 0 1000).length = 1000 ∧
    parseCPSPacket env "<r>" = Except.ok [] := by
  refine ⟨?_, ?_, ?_, ?_, ?_, ?_, ?_⟩
  · intro h
    rw [resolveTag_r, if_pos h]
  · intro ha
    have hne : trimSpace d ≠ [] := by
      intro hE
      rw [hE] at ha
      exact Except.noConfusion ha
    rw [resolveTag_r, if_neg hne, ha]
    by_cases h1 : n > 1000
    · have hmin : min n 1000 = 1000 := by omega
      rw [hmin]
      simp only [if_pos h1]
      rw [if_pos (by omega : (1000 : Int) > 0)]
    · simp only [if_neg h1]
      have hmin : min n 1000 = n := by omega
      rw [hmin]
      by_cases h2 : n > 0
      · rw [if_pos h2]
      · rw [if_neg h2]
        have h3 : n.toNat = 0 := by omega
        rw [h3]
        simp [takeRand]
  · rw [takeRand_length]
    omega
  · intro er hne he
    rw [resolveTag_r, if_neg hne, he]
  · have h5 : parseCPSPacket env "<r 5000>" = Except.ok (takeRand env.rand 0 1000 ++ []) := rfl
    rw [List.append_nil] at h5
    exact h5
  · exact takeRand_length env.rand 0 1000
  · rfl

/-- C7 witness: the amended theorem at the literal 5000. -/
theorem r_tag_clamped_contribution_witness :
    resolveTag cpsEnv0 0 'r' (" 5000".toList) =
      Except.ok (takeRand cpsEnv0.rand 0 (min (5000 : Int) 1000).toNat,
        0 + (min (5000 : Int) 1000).toNat) ∧
    parseCPSPacket cpsEnv0 "<r 5000>" = Except.ok (takeRand cpsEnv0.rand 0 1000) ∧
    (takeRand cpsEnv0.rand 0 1000).length = 1000 :=
  ⟨(r_tag_clamped_contribution cpsEnv0 0 (" 5000".toList) 5000).2.1 rfl,
   (r_tag_clamped_contribution cpsEnv0 0 (" 5000".toList) 5000).2.2.2.2.1,
   (r_tag_clamped_contribution cpsEnv0 0 (" 5000".toList) 5000).2.2.2.2.2.1⟩

/-- C8 counterexample: an embedded tab inside the hex data of a b tag is not
stripped (only ASCII spaces are removed), so resolution fails with a parse
error although the text with all whitespace removed is valid hex. -/
theorem b_tag_tab_error :
    isOkE (parseCPSPacket cpsEnv0 "<b c0\tff>") = false ∧
    hexDecode ['c', '0', 'f', 'f'] = Except.ok [192, 255] :=
  ⟨rfl, rfl⟩

/-- C8 (amended): for a b tag, the trimmed data is decoded after dropping an
optional 0x/0X prefix and removing embedded ASCII space characters (other
embedded whitespace such as tabs is kept and makes decoding fail); a decode
failure yields a parse error, success contributes exactly the decoded
bytes; resolving b zz is a parse error, and space-separated or 0x-prefixed
hex decodes as expected. -/
theorem b_tag_hex_contribution (env : CPSEnv) (off : Nat) (d : List Char) :
    (trimSpace d = [] → resolveTag env off 'b' d = Except.ok ([], off)) ∧
    (∀ bs, trimSpace d ≠ [] →
      hexDecode (removeSpaces (strip0x (trimSpace d))) = Except.ok bs →
      resolveTag env off 'b' d = Except.ok (bs, off)) ∧
    (∀ er, hexDecode (removeSpaces (strip0x (trimSpace d))) = Except.error er →
      resolveTag env off 'b' d = Except.error ("invalid hex data in b tag: " ++ er)) ∧
    isOkE (parseCPSPacket env "<b zz>") = false ∧
    parseCPSPacket env "<b c0 ff ee>" = Except.ok [192, 255, 238] ∧
    parseCPSPacket env "<b 0xABCD>" = Except.ok [171, 205] := by
  refine ⟨?_, ?_, ?_, rfl, rfl, rfl⟩
  · intro h
    rw [resolveTag_b, if_pos h]
  · intro bs hne hok
    rw [resolveTag_b, if_neg hne, hok]
  · intro er he
    have hne : trimSpace d ≠ [] := by
      intro hE
      rw [hE] at he
      exact Except.noConfusion he
    rw [resolveTag_b, if_neg hne, he]

/-- C8 witness: the amended theorem at concrete space-separated hex data. -/
theorem b_tag_hex_contribution_witness :
    resolveTag cpsEnv0 0 'b' (" c0 ff".toList) = Except.ok ([192, 255], 0) ∧
    parseCPSPacket cpsEnv0 "<b c0 ff ee>" = Except.ok [192, 255, 238] :=
  ⟨(b_tag_hex_contribution cpsEnv0 0 (" c0 ff".toList)).2.1 [192, 255] (by decide) rfl,
   (b_tag_hex_contribution cpsEnv0 0 (" c0 ff".toList)).2.2.2.2.1⟩

/-- C9: with a positive Jmin and AllowZeroSize off, generateJunkPacket never
fails, its size lies in the inclusive range from Jmin to max Jmin Jmax
(so Jmax below Jmin is raised to Jmin), and every size in that range is
attained by some draw; in particular Jmin 5 with Jmax 2 always gives exactly
5 bytes and Jmin = Jmax = 10 always exactly 10. -/
theorem junk_positive_min_bounds (c : AmneziaConfig) (e : JunkEnv)
    (hmin : 0 < c.Jmin) (hz : c.AllowZeroSize = false) :
    c.Jmin ≤ lenOpt (generateJunkPacket (some c) e) ∧
    lenOpt (generateJunkPacket (some c) e) ≤ max c.Jmin c.Jmax ∧
    ∀ s : Int, c.Jmin ≤ s → s ≤ max c.Jmin c.Jmax →
      ∃ e' : JunkEnv, lenOpt (generateJunkPacket (some c) e') = s := by
  rw [generateJunkPacket_pos c e hmin hz]
  obtain ⟨h1, h2⟩ := junkClamped_bounds c e 0 hmin
  refine ⟨h1, h2, ?_⟩
  intro s hs1 hs2
  refine ⟨⟨fun _ => (s - c.Jmin).toNat, fun _ => 0, false, fun _ => 0⟩, ?_⟩
  rw [generateJunkPacket_pos c _ hmin hz]
  exact junkClamped_surj c 0 hmin s hs1 hs2

/-- C9 witness: the theorem at Jmin 5, Jmax 2 and at Jmin = Jmax = 10. -/
theorem junk_positive_min_bounds_witness :
    ((5 : Int) ≤ lenOpt (generateJunkPacket (some cfg52) envJ0) ∧
      lenOpt (generateJunkPacket (some cfg52) envJ0) ≤ max (5 : Int) 2) ∧
    ((10 : Int) ≤ lenOpt (generateJunkPacket (some cfg1010) envJ0) ∧
      lenOpt (generateJunkPacket (some cfg1010) envJ0) ≤ max (10 : Int) 10) :=
  ⟨⟨(junk_positive_min_bounds cfg52 envJ0 (by decide) rfl).1,
    (junk_positive_min_bounds cfg52 envJ0 (by decide) rfl).2.1⟩,
   ⟨(junk_positive_min_bounds cfg1010 envJ0 (by decide) rfl).1,
    (junk_positive_min_bounds cfg1010 envJ0 (by decide) rfl).2.1⟩⟩

/-- C10: generateJunkPacket is total whenever Jmin and Jmax are both
non-negative (every rng.Intn argument is positive on every reachable path,
and a crypto/rand failure falls back to the math/rand fill instead of
erroring, since the environments quantified over include failing ones),
while Jmin = 0 with a negative Jmax reaches the rng.Intn panic, so the
precondition is necessary. -/
theorem generateJunkPacket_total_iff_nonneg (c : AmneziaConfig) (e : JunkEnv) :
    (0 ≤ c.Jmin → 0 ≤ c.Jmax → (generateJunkPacket (some c) e).isSome = true) ∧
    (c.Jmin = 0 → c.Jmax < 0 → generateJunkPacket (some c) e = none) := by
  constructor
  · intro hm hM
    obtain ⟨bs, hbs⟩ := generateJunkPacket_some c e hm hM
    rw [hbs]
    rfl
  · intro h0 hneg
    simp only [generateJunkPacket]
    rw [if_neg (by omega : ¬ (c.Jmin = 0 ∧ c.Jmax = 0)), if_pos h0]
    simp only [intn, if_pos (by omega : c.Jmax + 1 ≤ 0)]

/-- C10 witness: totality at the documented default bounds (also with a
failing crypto source) and the panic at Jmin 0, Jmax -1. -/
theorem generateJunkPacket_total_iff_nonneg_witness :
    (generateJunkPacket (some cfgDefaults) envJ0).isSome = true ∧
    (generateJunkPacket (some cfgDefaults) ⟨fun _ => 0, fun _ => 0, true, fun _ => 0⟩).isSome
      = true ∧
    generateJunkPacket (some cfgNegMax) envJ0 = none :=
  ⟨(generateJunkPacket_total_iff_nonneg cfgDefaults envJ0).1 (by decide) (by decide),
   (generateJunkPacket_total_iff_nonneg cfgDefaults
      ⟨fun _ => 0, fun _ => 0, true, fun _ => 0⟩).1 (by decide) (by decide),
   (generateJunkPacket_total_iff_nonneg cfgNegMax envJ0).2 rfl (by decide)⟩

end Preflightbind
